import Mathlib

/-!
Verification of the run-configuration resolution engine in
`bcbio/pipeline/run_info.py`.

The Python functions are shallowly embedded: heterogeneous YAML values become
the inductive `PyVal`; Python dictionaries become association lists over
`String` keys (CPython dict insertion order is modelled by list order;
Python 2 iteration order of freshly built literal dicts is unspecified, and
no result below depends on it); raised exceptions become `Except PyErr`.
Filesystem existence checks (`os.path.exists`) and the remote-object probe
(`objectstore.is_remote`) are external effects and are passed in as explicit
`String → Bool` oracles.  `os.path.normpath` is modelled as the identity:
inputs in this development contain no redundant separators or dot segments,
so normalization never changes them.  String primitives (`str.lower`,
`str.endswith`, `os.path.isabs`) are modelled over the character list of the
string so that they evaluate by kernel reduction.
-/

namespace RunInfo

/-- A Python/YAML value as it appears in sample configuration entries:
`None`, booleans, integers, strings, lists and string-keyed dictionaries. -/
inductive PyVal where
  | pnone : PyVal
  | pbool : Bool → PyVal
  | pint : Int → PyVal
  | pstr : String → PyVal
  | plist : List PyVal → PyVal
  | pdict : List (String × PyVal) → PyVal

/-- Python exceptions raised by the resolution code: `ValueError` with a
message, `KeyError` (from `set.pop()` on an empty set) and `TypeError`
(from a call with a missing required argument). -/
inductive PyErr where
  | valueError : String → PyErr
  | keyError : PyErr
  | typeError : String → PyErr
deriving DecidableEq, Repr

deriving instance DecidableEq for Except

/-- `str.lower()`, character by character. -/
def strLower (s : String) : String := ⟨s.data.map Char.toLower⟩

/-- `str.endswith(suf)`. -/
def strEndsWith (s suf : String) : Bool := suf.data.isSuffixOf s.data

/-- `os.path.isabs` on POSIX: the path starts with a slash. -/
def isAbsPath (s : String) : Bool := "/".data.isPrefixOf s.data

/-- Python truthiness for `PyVal`. -/
def truthy : PyVal → Bool
  | .pnone => false
  | .pbool b => b
  | .pint n => n != 0
  | .pstr s => s != ""
  | .plist l => !l.isEmpty
  | .pdict d => !d.isEmpty

/-- `isinstance(v, basestring)`. -/
def isStrV : PyVal → Bool
  | .pstr _ => true
  | _ => false

/-- `isinstance(v, (list, tuple))`. -/
def isListV : PyVal → Bool
  | .plist _ => true
  | _ => false

/-- `isinstance(v, dict)`. -/
def isDictV : PyVal → Bool
  | .pdict _ => true
  | _ => false

/-- Dictionary lookup (`d.get(k)` / `k in d`) on an association list. -/
def dget {β : Type} : List (String × β) → String → Option β
  | [], _ => none
  | (k', v') :: rest, k => if k' = k then some v' else dget rest k

/-- Dictionary assignment `d[k] = v`: replace the value in place when the key
is present (CPython keeps the key's position), otherwise append. -/
def dset {β : Type} : List (String × β) → String → β → List (String × β)
  | [], k, v => [(k, v)]
  | (k', v') :: rest, k, v => if k' = k then (k, v) :: rest else (k', v') :: dset rest k v

/-- Update the value stored at an existing key in place. -/
def modifyProg {β : Type} : List (String × β) → String → (β → β) → List (String × β)
  | [], _, _ => []
  | (k', v) :: rest, k, f => if k' = k then (k', f v) :: rest else (k', v) :: modifyProg rest k f

/-- `True` iff the `Except` computation did not raise. -/
def isOkE {ε α : Type} : Except ε α → Bool
  | .ok _ => true
  | .error _ => false

theorem dget_dset_self {β : Type} (l : List (String × β)) (k : String) (v : β) :
    dget (dset l k v) k = some v := by
  induction l with
  | nil => simp [dget, dset]
  | cons hd tl ih =>
    obtain ⟨k', v'⟩ := hd
    by_cases h : k' = k
    · simp [dget, dset, h]
    · simp [dget, dset, h, ih]

theorem dget_dset_ne {β : Type} (l : List (String × β)) (k k' : String) (v : β)
    (h : k ≠ k') : dget (dset l k v) k' = dget l k' := by
  induction l with
  | nil => simp [dget, dset, h]
  | cons hd tl ih =>
    obtain ⟨k₀, v₀⟩ := hd
    by_cases h₀ : k₀ = k
    · subst h₀; simp [dget, dset, h]
    · simp only [dset, if_neg h₀, dget]
      by_cases h₁ : k₀ = k'
      · simp [h₁]
      · simp [h₁, ih]

/-! ## PathResolver: `_file_to_abs` -/

/-- `os.path.join(d, x)` for a relative `x` (POSIX). -/
def pythonJoin (d x : String) : String :=
  if strEndsWith d "/" then d ++ x else d ++ "/" ++ x

/-- The candidate-directory loop of `_file_to_abs`: skip falsy directory
entries; at a truthy directory return the (normalized) join when it exists
on the filesystem, otherwise — when `makedir` is set — create that join and
return it; only without `makedir` continue to later candidates.  When the
candidates are exhausted, raise `ValueError` (the Python message also
renders the directory list, which is not modelled). -/
def file_to_abs_loop (fs : String → Bool) (x : String) (makedir : Bool) :
    List (Option String) → Except PyErr (Option String)
  | [] => .error (.valueError ("Did not find input file " ++ x))
  | d? :: rest =>
    match d? with
    | none => file_to_abs_loop fs x makedir rest
    | some d =>
      if d = "" then file_to_abs_loop fs x makedir rest
      else
        let normx := pythonJoin d x
        if fs normx then .ok (some normx)
        else if makedir then .ok (some normx)
        else file_to_abs_loop fs x makedir rest

/-- `_file_to_abs(x, dnames, makedir)`: `None` and absolute paths are
returned unchanged, as are remote-object references; the literal string
"none" (case-insensitive) maps to the absent value `None`; otherwise the
candidate directories are tried in order. -/
def file_to_abs (fs rem : String → Bool) (x : Option String)
    (dnames : List (Option String)) (makedir : Bool) : Except PyErr (Option String) :=
  match x with
  | none => .ok none
  | some s =>
    if isAbsPath s then .ok (some s)
    else if rem s then .ok (some s)
    else if strLower s = "none" then .ok none
    else file_to_abs_loop fs s makedir dnames

/-- The first truthy (non-`None`, non-empty) entry of a candidate-directory
list. -/
def firstTruthyDir : List (Option String) → Option String
  | [] => none
  | none :: rest => firstTruthyDir rest
  | some d :: rest => if d = "" then firstTruthyDir rest else some d

/-- A filesystem on which exactly "d2/f" exists. -/
def fsC4 : String → Bool := fun s => s == "d2/f"

/-- A remote-object probe that recognizes nothing as remote. -/
def remFalse : String → Bool := fun _ => false

theorem file_to_abs_loop_makedir (fs : String → Bool) (x : String)
    (dnames : List (Option String)) (d : String)
    (h : firstTruthyDir dnames = some d) :
    file_to_abs_loop fs x true dnames = .ok (some (pythonJoin d x)) := by
  induction dnames with
  | nil => simp [firstTruthyDir] at h
  | cons hd rest ih =>
    match hd with
    | none =>
      simp only [firstTruthyDir] at h
      simpa [file_to_abs_loop] using ih h
    | some d' =>
      by_cases hd' : d' = ""
      · subst hd'
        simp only [firstTruthyDir, if_pos rfl] at h
        simpa [file_to_abs_loop] using ih h
      · simp only [firstTruthyDir, if_neg hd', Option.some.injEq] at h
        subst h
        simp only [file_to_abs_loop, if_neg hd']
        cases hfs : fs (pythonJoin d' x) <;> simp [hfs]

/-- C4 (counterexample): with two candidate directories, a relative file name
and creation allowed, on a filesystem where the join against the second
candidate exists but the join against the first does not, `_file_to_abs`
creates and returns the join against the first candidate instead of returning
the existing join against the second — the `elif makedir:` branch sits inside
the candidate loop, so later candidates are never consulted. -/
theorem C4_counterexample :
    fsC4 "d1/f" = false ∧ fsC4 "d2/f" = true ∧
    file_to_abs fsC4 remFalse (some "f") [some "d1", some "d2"] true = .ok (some "d1/f") ∧
    ("d1/f" : String) ≠ "d2/f" :=
  ⟨rfl, by decide, by decide, by decide⟩

/-- C4 (amended): for a relative, non-remote, non-"none" path with creation
allowed, `_file_to_abs` always returns the join against the *first* truthy
candidate directory — returning it if it exists and creating it otherwise —
regardless of whether joins against later candidates exist on the
filesystem. -/
theorem C4_makedir_uses_first_truthy_candidate (fs rem : String → Bool) (x : String)
    (dnames : List (Option String)) (d : String)
    (h1 : isAbsPath x = false) (h2 : rem x = false) (h3 : strLower x ≠ "none")
    (h4 : firstTruthyDir dnames = some d) :
    file_to_abs fs rem (some x) dnames true = .ok (some (pythonJoin d x)) := by
  simp only [file_to_abs, h1, h2, h3, Bool.false_eq_true, if_false]
  exact file_to_abs_loop_makedir fs x dnames d h4

/-- Witness for C4 (amended) at a concrete input: the first truthy candidate
is "d1" (after a `None` and an empty entry), nothing exists on the
filesystem, and the created join "d1/f" is returned. -/
theorem C4_makedir_uses_first_truthy_candidate_witness :
    file_to_abs (fun _ => false) remFalse (some "f") [none, some "", some "d1", some "d2"] true =
      .ok (some (pythonJoin "d1" "f")) :=
  C4_makedir_uses_first_truthy_candidate (fun _ => false) remFalse "f"
    [none, some "", some "d1", some "d2"] "d1" (by decide) rfl (by decide) (by decide)

/-! ## ValidationEngine: duplicate detection (`_check_for_duplicates`) -/

/-- The slice of a sample record that duplicate detection inspects. -/
structure DupItem where
  lane : String
  description : String
deriving DecidableEq, Repr

/-- `itertools.groupby` over a key sequence *without prior sorting*: only
runs of adjacent equal keys form groups.  Returns each group's key together
with its length. -/
def adjacentGroups : List String → List (String × Nat)
  | [] => []
  | k :: rest =>
    match adjacentGroups rest with
    | [] => [(k, 1)]
    | (k', n) :: gs => if k = k' then (k, n + 1) :: gs else (k, 1) :: (k', n) :: gs

/-- `_check_for_duplicates(xs, attr)` (with no `check_fn`): collect the keys
of the `itertools.groupby` groups of size greater than one, and when any are
found raise a `ValueError` naming the attribute, the duplicated values and
the descriptions of the offending samples (Python renders the lists with
`%s`; the message here joins them with commas). -/
def check_for_duplicates (xs : List DupItem) (attrName : String)
    (attr : DupItem → String) : Except PyErr Unit :=
  let dups := (adjacentGroups (xs.map attr)).filterMap
    (fun g => if g.2 > 1 then some g.1 else none)
  if dups.isEmpty then .ok ()
  else
    let psamples := xs.filter (fun x => dups.contains (attr x))
    .error (.valueError ("Duplicate " ++ attrName ++ " found in input sample configuration. "
      ++ "Required to be unique for a project: " ++ String.intercalate ", " dups
      ++ " Problem found in these samples: "
      ++ String.intercalate ", " (psamples.map (fun x => x.description))))

/-- Three samples whose first and third entries share lane "1"
(non-adjacent duplicate). -/
def dupItemsNonAdjacent : List DupItem :=
  [⟨"1", "s1"⟩, ⟨"2", "s2"⟩, ⟨"1", "s3"⟩]

/-- The same three samples with the two lane-"1" entries adjacent. -/
def dupItemsAdjacent : List DupItem :=
  [⟨"1", "s1"⟩, ⟨"1", "s3"⟩, ⟨"2", "s2"⟩]

/-- C1 (code bug): `_check_for_duplicates` applies `itertools.groupby` to the
unsorted attribute sequence, so only *adjacent* equal values form groups: the
record set with lanes ["1", "2", "1"] — lane "1" occurring twice — passes
the duplicate check silently, while the same multiset with the duplicates
adjacent raises.  This contradicts the function's stated purpose of
identifying duplicate items. -/
theorem C1_nonadjacent_duplicates_missed :
    (dupItemsNonAdjacent.map (fun x => x.lane)).count "1" = 2 ∧
    check_for_duplicates dupItemsNonAdjacent "lane" (fun x => x.lane) = .ok () ∧
    isOkE (check_for_duplicates dupItemsAdjacent "lane" (fun x => x.lane)) = false :=
  ⟨by decide, by decide, by decide⟩

/-! ## Global resource-override merge (`_run_info_from_yaml`) -/

/-- The merge of the global `resources` table into one sample's `resources`
mapping, as performed at the end of per-sample normalization: for each global
program entry, ensure the program key exists on the sample, then — when the
global entry is not `None` — assign each of its key/value pairs into the
sample's per-program mapping (`item["resources"][prog][key] = val`, with no
presence guard). -/
def merge_global_resources (itemRes : List (String × List (String × PyVal)))
    (resources : List (String × Option (List (String × PyVal)))) :
    List (String × List (String × PyVal)) :=
  resources.foldl (fun acc pr =>
    let acc1 := match dget acc pr.1 with
      | some _ => acc
      | none => acc ++ [(pr.1, [])]
    match pr.2 with
    | none => acc1
    | some pkvs => pkvs.foldl (fun acc2 kv => modifyProg acc2 pr.1
        (fun inner => dset inner kv.1 kv.2)) acc1) itemRes

/-- A sample that explicitly sets `resources.gatk.memory = "8g"`. -/
def itemResC2 : List (String × List (String × PyVal)) :=
  [("gatk", [("memory", PyVal.pstr "8g")])]

/-- Global defaults setting `resources.gatk.memory = "4g"`. -/
def globalResC2 : List (String × Option (List (String × PyVal))) :=
  [("gatk", some [("memory", PyVal.pstr "4g")])]

/-- C2 (code bug): merging the global resource defaults *overwrites* the
sample-specified value — the sample's `gatk.memory = "8g"` comes out as the
global default "4g", because the assignment loop has no key-presence guard. -/
theorem C2_global_default_overwrites_sample_value :
    dget itemResC2 "gatk" = some [("memory", PyVal.pstr "8g")] ∧
    merge_global_resources itemResC2 globalResC2 =
      [("gatk", [("memory", PyVal.pstr "4g")])] ∧
    ("4g" : String) ≠ "8g" :=
  ⟨rfl, rfl, by decide⟩

/-! ## ValidationEngine: boolean misuse (`_check_algorithm_values`) -/

/-- `ALG_ALLOW_BOOLEANS`: the algorithm options that legitimately take a
boolean value. -/
def ALG_ALLOW_BOOLEANS : List String :=
  ["merge_bamprep", "mark_duplicates", "remove_lcr",
   "clinical_reporting", "transcriptome_align",
   "fusion_mode", "assemble_transcripts", "trim_reads",
   "recalibrate", "realign", "cwl_reporting", "save_diskspace"]

/-- `ALG_ALLOW_FALSE`: the algorithm options that additionally accept
`false` (to disable a step). -/
def ALG_ALLOW_FALSE : List String :=
  ["aligner", "align_split_size", "bam_clean", "bam_sort",
   "effects", "phasing", "mixup_check", "indelcaller",
   "variantcaller", "positional_umi", "maxcov_downsample", "preseq"]

/-- One iteration of the `_check_algorithm_values` loop: `v is True` outside
`ALG_ALLOW_BOOLEANS` yields a problem entry, `v is False` outside both
`ALG_ALLOW_BOOLEANS` and `ALG_ALLOW_FALSE` yields a problem entry, anything
else yields none. -/
def boolProblem (kv : String × PyVal) : Option String :=
  match kv.2 with
  | .pbool true => if kv.1 ∈ ALG_ALLOW_BOOLEANS then none
                   else some (kv.1 ++ " set as true")
  | .pbool false => if kv.1 ∈ ALG_ALLOW_BOOLEANS ∨ kv.1 ∈ ALG_ALLOW_FALSE
                    then none else some (kv.1 ++ " set as false")
  | _ => none

/-- The accumulated problem list of `_check_algorithm_values`. -/
def algorithm_value_problems (alg : List (String × PyVal)) : List String :=
  alg.filterMap boolProblem

/-- `_check_algorithm_values(item)`: raise a `ValueError` listing every
boolean-misuse problem together with the sample's description (the Python
message also appends a documentation URL, which is not modelled). -/
def check_algorithm_values (descr : String) (alg : List (String × PyVal)) :
    Except PyErr Unit :=
  if algorithm_value_problems alg = [] then .ok ()
  else .error (.valueError ("Incorrect settings in algorithm section for " ++ descr ++ ": "
    ++ String.intercalate ", " (algorithm_value_problems alg)))

theorem check_algorithm_values_err (descr : String) (alg : List (String × PyVal))
    (h : algorithm_value_problems alg ≠ []) :
    ∃ m, check_algorithm_values descr alg = .error (.valueError m) := by
  simp only [check_algorithm_values, if_neg h]
  exact ⟨_, rfl⟩

/-- C5: a value of `true` for a key outside `ALG_ALLOW_BOOLEANS` makes
`_check_algorithm_values` fail with a configuration error whose problem list
names the key; a value of `false` for a key outside both
`ALG_ALLOW_BOOLEANS` and `ALG_ALLOW_FALSE` likewise fails; and when every
`true` is on a boolean-accepting key and every `false` is on a
boolean-accepting or false-accepting key, the check passes. -/
theorem C5_boolean_misuse (descr : String) (alg : List (String × PyVal)) (k : String) :
    (((k, PyVal.pbool true) ∈ alg ∧ k ∉ ALG_ALLOW_BOOLEANS) →
      (k ++ " set as true") ∈ algorithm_value_problems alg ∧
      ∃ m, check_algorithm_values descr alg = .error (.valueError m)) ∧
    (((k, PyVal.pbool false) ∈ alg ∧ k ∉ ALG_ALLOW_BOOLEANS ∧ k ∉ ALG_ALLOW_FALSE) →
      (k ++ " set as false") ∈ algorithm_value_problems alg ∧
      ∃ m, check_algorithm_values descr alg = .error (.valueError m)) ∧
    ((∀ k', (k', PyVal.pbool true) ∈ alg → k' ∈ ALG_ALLOW_BOOLEANS) →
     (∀ k', (k', PyVal.pbool false) ∈ alg →
        k' ∈ ALG_ALLOW_BOOLEANS ∨ k' ∈ ALG_ALLOW_FALSE) →
      check_algorithm_values descr alg = .ok ()) := by
  refine ⟨fun ⟨hmem, hk⟩ => ?_, fun ⟨hmem, hk, hk'⟩ => ?_, fun htrue hfalse => ?_⟩
  · have hp : (k ++ " set as true") ∈ algorithm_value_problems alg :=
      List.mem_filterMap.mpr ⟨(k, PyVal.pbool true), hmem, by simp [boolProblem, hk]⟩
    exact ⟨hp, check_algorithm_values_err descr alg (List.ne_nil_of_mem hp)⟩
  · have hp : (k ++ " set as false") ∈ algorithm_value_problems alg :=
      List.mem_filterMap.mpr ⟨(k, PyVal.pbool false), hmem, by simp [boolProblem, hk, hk']⟩
    exact ⟨hp, check_algorithm_values_err descr alg (List.ne_nil_of_mem hp)⟩
  · have hnil : algorithm_value_problems alg = [] := by
      refine List.filterMap_eq_nil_iff.mpr (fun kv hkv => ?_)
      obtain ⟨k', v⟩ := kv
      match v with
      | .pbool true => simp [boolProblem, htrue k' hkv]
      | .pbool false =>
        simp only [boolProblem]
        rw [if_pos (hfalse k' hkv)]
      | .pnone | .pint _ | .pstr _ | .plist _ | .pdict _ => simp [boolProblem]
    simp [check_algorithm_values, hnil]

/-- Witness for C5 at concrete inputs: `coverage: true` is rejected with a
problem entry naming `coverage`, while `trim_reads: true` together with
`aligner: false` passes the check. -/
theorem C5_boolean_misuse_witness :
    ("coverage" ++ " set as true") ∈
      algorithm_value_problems [("coverage", PyVal.pbool true)] ∧
    (∃ m, check_algorithm_values "s1" [("coverage", PyVal.pbool true)] =
      .error (.valueError m)) ∧
    check_algorithm_values "s2" [("trim_reads", PyVal.pbool true), ("aligner", PyVal.pbool false)] =
      .ok () := by
  have h1 := (C5_boolean_misuse "s1" [("coverage", PyVal.pbool true)] "coverage").1
    ⟨by simp, by decide⟩
  have h2 := (C5_boolean_misuse "s2"
    [("trim_reads", PyVal.pbool true), ("aligner", PyVal.pbool false)] "x").2.2
    (by
      intro k' hk'
      simp at hk'
      subst hk'
      decide)
    (by
      intro k' hk'
      simp at hk'
      subst hk'
      right; decide)
  exact ⟨h1.1, h1.2, h2⟩

/-! ## Global-variable substitution (`_replace_global_vars`) -/

/-- One key/value pair of the mapping branch of `_replace_global_vars`: a
string value that is a key of the global variable table is replaced by the
table's value; every other value is kept as is. -/
def substTop (gv : List (String × PyVal)) (kv : String × PyVal) : String × PyVal :=
  match kv.2 with
  | .pstr s => (kv.1, (dget gv s).getD (.pstr s))
  | v => (kv.1, v)

/-- `_replace_global_vars(xs, global_vars)`.  The mapping branch rebuilds the
dictionary substituting only values that are themselves strings; it performs
no recursive call.  The sequence branch maps a recursive call written as
`_replace_global_vars(x)` — missing the required `global_vars` argument — so
it raises a `TypeError` for every non-empty sequence (for the empty sequence
the comprehension never calls it).  Anything else is returned unchanged. -/
def replace_global_vars (xs : PyVal) (gv : List (String × PyVal)) : Except PyErr PyVal :=
  match xs with
  | .plist [] => .ok (.plist [])
  | .plist (_ :: _) =>
      .error (.typeError "replace_global_vars takes exactly 2 arguments (1 given)")
  | .pdict d => .ok (.pdict (d.map (substTop gv)))
  | v => .ok v

/-- C3 (counterexample): an `algorithm` mapping whose `qc` value is the list
["myvar"], with "myvar" bound in the global variable table, comes back
completely unchanged — the substitution does not reach inside list values,
so the claim's "for every algorithm value that is a list of strings, the
function substitutes inside the list" fails. -/
theorem C3_counterexample :
    replace_global_vars (.pdict [("qc", .plist [.pstr "myvar"])])
        [("myvar", PyVal.pstr "/data/a.bed")] =
      .ok (.pdict [("qc", .plist [.pstr "myvar"])]) ∧
    dget [("myvar", PyVal.pstr "/data/a.bed")] "myvar" = some (.pstr "/data/a.bed") ∧
    ("myvar" : String) ≠ "/data/a.bed" :=
  ⟨rfl, rfl, by decide⟩

/-- C3 (amended): substitution over a sample's `algorithm` mapping acts only
on the top level of the mapping — every value that is itself a string and a
key of the table becomes the table's value, a string outside the table and
every non-string value (nested sequences and mappings included) are returned
unchanged, and keys are preserved; called directly on a non-empty sequence
the function raises a `TypeError` (the recursive call omits the table
argument); any other value is returned unchanged. -/
theorem C3_top_level_substitution_only (gv : List (String × PyVal)) :
    (∀ d : List (String × PyVal), ∃ d',
      replace_global_vars (.pdict d) gv = .ok (.pdict d') ∧
      List.Forall₂ (fun kv kv' : String × PyVal =>
        kv'.1 = kv.1 ∧
        (∀ s, kv.2 = .pstr s →
          (∀ w, dget gv s = some w → kv'.2 = w) ∧
          (dget gv s = none → kv'.2 = .pstr s)) ∧
        (isStrV kv.2 = false → kv'.2 = kv.2)) d d') ∧
    (∀ x l, replace_global_vars (.plist (x :: l)) gv =
      .error (.typeError "replace_global_vars takes exactly 2 arguments (1 given)")) ∧
    (∀ v : PyVal, isListV v = false → isDictV v = false →
      replace_global_vars v gv = .ok v) := by
  refine ⟨fun d => ⟨d.map (substTop gv), rfl, ?_⟩, fun x l => rfl, fun v h1 h2 => ?_⟩
  · induction d with
    | nil => exact List.Forall₂.nil
    | cons kv rest ih =>
      refine List.Forall₂.cons ?_ ih
      obtain ⟨k, v⟩ := kv
      refine ⟨?_, fun s hs => ?_, fun hn => ?_⟩
      · cases v <;> rfl
      · subst hs
        constructor
        · intro w hw
          simp [substTop, hw]
        · intro hw
          simp [substTop, hw]
      · cases v <;> simp_all [substTop, isStrV]
  · cases v with
    | plist l => simp [isListV] at h1
    | pdict d => simp [isDictV] at h2
    | pnone => rfl
    | pbool b => rfl
    | pint n => rfl
    | pstr s => rfl

/-- Witness for C3 (amended) at concrete inputs: a mapping with a bound
string value, an unbound string value and a list value is rewritten exactly
at the bound string; a non-empty list raises; a bare string is unchanged. -/
theorem C3_top_level_substitution_only_witness :
    replace_global_vars (.pdict [("validate", .pstr "gv1")]) [("gv1", PyVal.pstr "/t.vcf")] =
      .ok (.pdict [("validate", .pstr "/t.vcf")]) ∧
    replace_global_vars (.plist [.pstr "gv1"]) [("gv1", PyVal.pstr "/t.vcf")] =
      .error (.typeError "replace_global_vars takes exactly 2 arguments (1 given)") ∧
    replace_global_vars (.pstr "untouched") [("gv1", PyVal.pstr "/t.vcf")] =
      .ok (.pstr "untouched") := by
  obtain ⟨-, h2, h3⟩ := C3_top_level_substitution_only [("gv1", PyVal.pstr "/t.vcf")]
  exact ⟨rfl, h2 (.pstr "gv1") [], h3 (.pstr "untouched") rfl rfl⟩

/-! ## File-type sanity check (`_sanity_check_files`) -/

/-- The message computation of `_sanity_check_files` after the file-type set
has been built: `hasBam`/`hasFastq` say which of the two type tags the set
contains.  CPython's `set.pop()` returns an unspecified element of the set;
this model takes the "bam" branch whenever the set contains "bam".  The
raise/no-raise outcome does not depend on that choice: in the mixed case
every subsequent branch leaves the message set (a non-empty truthy file list
with both types has length at least two), only the message text differs. -/
def sanityMsg (hasBam hasFastq : Bool) (analysisLower : String)
    (files : List String) : Option String :=
  let msg0 : Option String :=
    if hasBam && hasFastq then some "Found multiple file types (BAM and fastq)" else none
  if hasBam then
    if files.length ≠ 1 then some "Expect a single BAM file input as input" else msg0
  else
    let m1 := if (files.length ≠ 1 ∧ files.length ≠ 2) ∧ analysisLower ≠ "scrna-seq" then
        some "Expect either 1 (single end) or 2 (paired end) fastq inputs" else msg0
    if files.length = 2 ∧ files[0]? = files[1]? then
      some "Expect both fastq files to not be the same" else m1

/-- `_sanity_check_files(item, files)`: classify the truthy files as "bam"
(name ends in ".bam") or "fastq" (anything else); `set.pop()` on an empty
type set raises `KeyError`; otherwise compute the message chain and raise a
`ValueError` carrying the sample's description when a message was set
(Python's message also renders the file list, which is not modelled). -/
def sanity_check_files (descr analysis : String) (files : List String) :
    Except PyErr Unit :=
  let truthyFiles := files.filter (fun x => x != "")
  let hasBam := truthyFiles.any (fun x => strEndsWith x ".bam")
  let hasFastq := truthyFiles.any (fun x => !strEndsWith x ".bam")
  if hasBam || hasFastq then
    match sanityMsg hasBam hasFastq (strLower analysis) files with
    | some m => .error (.valueError (m ++ " for " ++ descr))
    | none => .ok ()
  else .error .keyError

/-- C6: on a non-empty list of resolved (truthy) files, mixing a BAM with
non-BAM entries always fails; an all-BAM list succeeds exactly when it has
one element; an all-FASTQ list fails when its length is neither 1 nor 2
unless the analysis is "scrna-seq" (case-insensitive), fails when it has
exactly two equal entries, and succeeds otherwise. -/
theorem C6_file_type_sanity (descr analysis : String) (files : List String)
    (hne : files ≠ []) (hnm : ∀ f ∈ files, f ≠ "") :
    (((∃ f ∈ files, strEndsWith f ".bam" = true) ∧
      (∃ f ∈ files, strEndsWith f ".bam" = false)) →
      ∃ m, sanity_check_files descr analysis files = .error (.valueError m)) ∧
    ((∀ f ∈ files, strEndsWith f ".bam" = true) →
      (sanity_check_files descr analysis files = .ok () ↔ files.length = 1)) ∧
    ((∀ f ∈ files, strEndsWith f ".bam" = false) →
      (((files.length ≠ 1 ∧ files.length ≠ 2) ∧ strLower analysis ≠ "scrna-seq") →
        ∃ m, sanity_check_files descr analysis files = .error (.valueError m)) ∧
      ((files.length = 2 ∧ files[0]? = files[1]?) →
        ∃ m, sanity_check_files descr analysis files = .error (.valueError m)) ∧
      (((files.length = 1 ∨ files.length = 2 ∨ strLower analysis = "scrna-seq") ∧
          ¬(files.length = 2 ∧ files[0]? = files[1]?)) →
        sanity_check_files descr analysis files = .ok ())) := by
  have hfilter : files.filter (fun x => x != "") = files :=
    List.filter_eq_self.mpr (fun a ha => by simpa using hnm a ha)
  refine ⟨fun ⟨hb, hf⟩ => ?_, fun hab => ?_, fun haf => ?_⟩
  · have hB : files.any (fun x => strEndsWith x ".bam") = true :=
      List.any_eq_true.mpr (by simpa using hb)
    have hF : files.any (fun x => !strEndsWith x ".bam") = true :=
      List.any_eq_true.mpr (by simpa using hf)
    have hlen : files.length ≠ 1 := by
      intro h1
      obtain ⟨a, rfl⟩ := List.length_eq_one.mp h1
      obtain ⟨f1, hf1, hf1b⟩ := hb
      obtain ⟨f2, hf2, hf2b⟩ := hf
      simp only [List.mem_singleton] at hf1 hf2
      rw [hf1] at hf1b
      rw [hf2] at hf2b
      rw [hf1b] at hf2b
      exact absurd hf2b (by decide)
    simp only [sanity_check_files, hfilter, hB, hF, Bool.true_or, if_true]
    simp [sanityMsg, hlen]
  · have hB : files.any (fun x => strEndsWith x ".bam") = true := by
      obtain ⟨a, ha⟩ := List.exists_mem_of_ne_nil files hne
      exact List.any_eq_true.mpr ⟨a, ha, by simpa using hab a ha⟩
    have hF : files.any (fun x => !strEndsWith x ".bam") = false := by
      refine List.any_eq_false.mpr (fun a ha => ?_)
      simp [hab a ha]
    simp only [sanity_check_files, hfilter, hB, hF, Bool.true_or, if_true]
    by_cases hlen : files.length = 1 <;> simp [sanityMsg, hlen]
  · have hB : files.any (fun x => strEndsWith x ".bam") = false := by
      refine List.any_eq_false.mpr (fun a ha => ?_)
      simp [haf a ha]
    have hF : files.any (fun x => !strEndsWith x ".bam") = true := by
      obtain ⟨a, ha⟩ := List.exists_mem_of_ne_nil files hne
      exact List.any_eq_true.mpr ⟨a, ha, by simp [haf a ha]⟩
    simp only [sanity_check_files, hfilter, hB, hF, Bool.false_or, if_true]
    refine ⟨fun ⟨hlen, hsc⟩ => ?_, fun hpair => ?_, fun ⟨hok, hnp⟩ => ?_⟩
    · by_cases hpair : files.length = 2 ∧ files[0]? = files[1]? <;>
        simp [sanityMsg, hlen.1, hlen.2, hsc, hpair]
    · simp [sanityMsg, hpair]
    · have hm1 : ¬((files.length ≠ 1 ∧ files.length ≠ 2) ∧ strLower analysis ≠ "scrna-seq") := by
        rcases hok with h | h | h
        · exact fun hc => hc.1.1 h
        · exact fun hc => hc.1.2 h
        · exact fun hc => hc.2 h
      simp [sanityMsg, hm1, hnp]

/-- Witness for C6 at concrete inputs: a mixed BAM/FASTQ pair fails, a
single BAM succeeds, a FASTQ pair with identical paths fails, and a FASTQ
pair with distinct paths succeeds. -/
theorem C6_file_type_sanity_witness :
    (∃ m, sanity_check_files "s" "variant2" ["a.bam", "b.fq"] = .error (.valueError m)) ∧
    sanity_check_files "s" "variant2" ["a.bam"] = .ok () ∧
    (∃ m, sanity_check_files "s" "variant2" ["a.fq", "a.fq"] = .error (.valueError m)) ∧
    sanity_check_files "s" "variant2" ["a.fq", "b.fq"] = .ok () := by
  refine ⟨?_, ?_, ?_, ?_⟩
  · exact (C6_file_type_sanity "s" "variant2" ["a.bam", "b.fq"] (by decide)
      (by decide)).1 ⟨⟨"a.bam", by simp, by decide⟩, ⟨"b.fq", by simp, by decide⟩⟩
  · exact ((C6_file_type_sanity "s" "variant2" ["a.bam"] (by decide)
      (by decide)).2.1 (by decide)).mpr rfl
  · exact ((C6_file_type_sanity "s" "variant2" ["a.fq", "a.fq"] (by decide)
      (by decide)).2.2 (by decide)).2.1 ⟨rfl, rfl⟩
  · exact ((C6_file_type_sanity "s" "variant2" ["a.fq", "b.fq"] (by decide)
      (by decide)).2.2 (by decide)).2.2 ⟨Or.inr (Or.inl rfl), by decide⟩

/-! ## File normalization (`_normalize_files`) -/

/-- Short-circuiting monadic map over `Except`, mirroring a Python list
comprehension whose body may raise: the first raise aborts the whole
comprehension. -/
def mapExcept {α β ε : Type} (f : α → Except ε β) : List α → Except ε (List β)
  | [] => .ok []
  | a :: as =>
    match f a with
    | .error e => .error e
    | .ok b =>
      match mapExcept f as with
      | .error e => .error e
      | .ok bs => .ok (b :: bs)

/-- `[x for x in files if x]` over resolved entries: drop `None` and empty
strings. -/
def keepTruthy : List (Option String) → List String
  | [] => []
  | none :: rest => keepTruthy rest
  | some s :: rest => if s = "" then keepTruthy rest else s :: keepTruthy rest

/-- `_normalize_files(item, fc_dir)` for a sample whose `files` entry is a
list (a bare string is wrapped into a one-element list before this point):
when the list is falsy (empty) the sample is left untouched; otherwise every
entry is resolved through `_file_to_abs` against the candidate directories
[cwd, fc_dir, fastq_dir] (where `fastq_dir` is supplied by the external
collaborator `flowcell.get_fastq_dir` when a flowcell directory is given and
is the working directory otherwise — it is taken here as an input), the
falsy results are dropped, and the surviving list is passed to
`_sanity_check_files` and stored back on the sample. -/
def normalize_files (fs rem : String → Bool) (cwd : String) (fcDir : Option String)
    (fastqDir : String) (descr analysis : String) (files : List String) :
    Except PyErr (List String) :=
  if files.isEmpty then .ok files
  else
    match mapExcept
        (fun x => file_to_abs fs rem (some x) [some cwd, fcDir, some fastqDir] false)
        files with
    | .error e => .error e
    | .ok resolved =>
      match sanity_check_files descr analysis (keepTruthy resolved) with
      | .error e => .error e
      | .ok _ => .ok (keepTruthy resolved)

theorem mapExcept_ok_none {α : Type} (f : α → Except PyErr (Option String))
    (l : List α) (h : ∀ a ∈ l, f a = .ok none) :
    mapExcept f l = .ok (l.map (fun _ => (none : Option String))) := by
  induction l with
  | nil => rfl
  | cons a as ih =>
    have ha := h a (by simp)
    have htl := ih (fun b hb => h b (by simp [hb]))
    simp only [mapExcept, ha, htl, List.map_cons]

theorem keepTruthy_map_none {α : Type} (l : List α) :
    keepTruthy (l.map (fun _ => (none : Option String))) = [] := by
  induction l with
  | nil => rfl
  | cons a as ih => simpa [keepTruthy] using ih

/-- C9: for a sample whose `files` list is non-empty but every entry is the
(relative, non-remote) absent-value sentinel "none" (case-insensitive),
every entry resolves to `None`, the truthiness filter leaves an empty list,
and `_sanity_check_files` fails by popping from an empty set — an unhandled
`KeyError`, not a descriptive configuration error naming the sample. -/
theorem C9_all_none_files_keyerror (fs rem : String → Bool) (cwd : String)
    (fcDir : Option String) (fastqDir descr analysis : String) (files : List String)
    (hne : files ≠ [])
    (hall : ∀ f ∈ files, isAbsPath f = false ∧ rem f = false ∧ strLower f = "none") :
    normalize_files fs rem cwd fcDir fastqDir descr analysis files =
      .error .keyError := by
  have hres : ∀ f ∈ files,
      file_to_abs fs rem (some f) [some cwd, fcDir, some fastqDir] false = .ok none := by
    intro f hf
    obtain ⟨h1, h2, h3⟩ := hall f hf
    simp [file_to_abs, h1, h2, h3]
  have hmap := mapExcept_ok_none _ files hres
  have hempty : files.isEmpty = false := by
    cases files with
    | nil => exact absurd rfl hne
    | cons a as => rfl
  simp only [normalize_files, hempty, Bool.false_eq_true, if_false, hmap,
    keepTruthy_map_none]
  rfl

/-- Witness for C9 at a concrete input: `files: ["none", "NONE"]` raises the
bare `KeyError`. -/
theorem C9_all_none_files_keyerror_witness :
    normalize_files remFalse remFalse "/work" none "/work" "s" "variant2"
      ["none", "NONE"] = .error .keyError := by
  refine C9_all_none_files_keyerror remFalse remFalse "/work" none "/work" "s" "variant2"
    ["none", "NONE"] (by decide) ?_
  intro f hf
  simp only [List.mem_cons, List.not_mem_nil, or_false] at hf
  rcases hf with rfl | rfl
  · exact ⟨by decide, rfl, by decide⟩
  · exact ⟨by decide, rfl, by decide⟩

/-! ## Caller-list cleaning (`_clean_algorithm`) -/

/-- The body of the `if val:` block of `_clean_algorithm` for one caller
key: a bare string is wrapped into a one-element list; then a list value is
collapsed to `False` when it has exactly one falsy element, or when its
first element is a string spelling "none" or "false" in any case — the
parenthesization in the source (`len(val) == 1 and not val[0] or (...)`)
applies the string test to `val[0]` regardless of the list's length.  Any
other truthy value is stored back unchanged. -/
def cleanCallerVal (val : PyVal) : PyVal :=
  let wrapped := match val with
    | .pstr s => PyVal.plist [.pstr s]
    | w => w
  match wrapped with
  | .plist (v0 :: rest) =>
    if (rest.isEmpty && !truthy v0) ||
       (match v0 with
        | .pstr s => strLower s == "none" || strLower s == "false"
        | _ => false) then .pbool false
    else .plist (v0 :: rest)
  | w => w

/-- One iteration of the `_clean_algorithm` loop: fetch the key from the
`algorithm` mapping; when present and truthy, clean the value and store it
back in place. -/
def cleanKey (alg : List (String × PyVal)) (key : String) : List (String × PyVal) :=
  match dget alg key with
  | some v => if truthy v then dset alg key (cleanCallerVal v) else alg
  | none => alg

/-- `_clean_algorithm(data)` restricted to the `algorithm` mapping: the loop
over the caller keys ["variantcaller", "jointcaller", "svcaller"]. -/
def clean_algorithm (alg : List (String × PyVal)) : List (String × PyVal) :=
  cleanKey (cleanKey (cleanKey alg "variantcaller") "jointcaller") "svcaller"

theorem dget_cleanKey_self (alg : List (String × PyVal)) (key : String) :
    dget (cleanKey alg key) key =
      (dget alg key).map (fun v => if truthy v then cleanCallerVal v else v) := by
  unfold cleanKey
  cases h : dget alg key with
  | none => simp [h]
  | some v =>
    cases ht : truthy v
    · simp [ht, h]
    · simp [ht, dget_dset_self]

theorem dget_cleanKey_ne (alg : List (String × PyVal)) (key key' : String)
    (h : key ≠ key') : dget (cleanKey alg key) key' = dget alg key' := by
  unfold cleanKey
  cases hd : dget alg key with
  | none => rfl
  | some v =>
    cases ht : truthy v
    · simp [ht]
    · simp [ht, dget_dset_ne _ _ _ _ h]

theorem dget_clean_algorithm (alg : List (String × PyVal)) (key : String)
    (hkey : key = "variantcaller" ∨ key = "jointcaller" ∨ key = "svcaller") :
    dget (clean_algorithm alg) key =
      (dget alg key).map (fun v => if truthy v then cleanCallerVal v else v) := by
  unfold clean_algorithm
  rcases hkey with rfl | rfl | rfl
  · rw [dget_cleanKey_ne _ _ _ (by decide), dget_cleanKey_ne _ _ _ (by decide),
      dget_cleanKey_self]
  · rw [dget_cleanKey_ne _ _ _ (by decide), dget_cleanKey_self,
      dget_cleanKey_ne _ _ _ (by decide)]
  · rw [dget_cleanKey_self, dget_cleanKey_ne _ _ _ (by decide),
      dget_cleanKey_ne _ _ _ (by decide)]

/-- C7: caller-field cleaning maps the scalar string "gatk" under
`algorithm.variantcaller` to the one-element list ["gatk"], maps the
one-element list ["none"] to the boolean `False`, and likewise collapses a
one-element list holding any falsy value, or holding a string spelling
"none"/"false" in any case, to `False`. -/
theorem C7_caller_field_cleaning (alg : List (String × PyVal)) :
    (dget alg "variantcaller" = some (.pstr "gatk") →
      dget (clean_algorithm alg) "variantcaller" = some (.plist [.pstr "gatk"])) ∧
    (dget alg "variantcaller" = some (.plist [.pstr "none"]) →
      dget (clean_algorithm alg) "variantcaller" = some (.pbool false)) ∧
    (∀ v, truthy v = false → dget alg "variantcaller" = some (.plist [v]) →
      dget (clean_algorithm alg) "variantcaller" = some (.pbool false)) ∧
    (∀ s, (strLower s = "none" ∨ strLower s = "false") →
      dget alg "variantcaller" = some (.plist [.pstr s]) →
      dget (clean_algorithm alg) "variantcaller" = some (.pbool false)) := by
  have hvc : ("variantcaller" : String) = "variantcaller" ∨
      ("variantcaller" : String) = "jointcaller" ∨
      ("variantcaller" : String) = "svcaller" := Or.inl rfl
  refine ⟨fun h => ?_, fun h => ?_, fun v hv h => ?_, fun s hs h => ?_⟩
  · rw [dget_clean_algorithm alg _ hvc, h]
    rfl
  · rw [dget_clean_algorithm alg _ hvc, h]
    rfl
  · rw [dget_clean_algorithm alg _ hvc, h]
    rw [Option.map_some']
    rw [if_pos (show truthy (PyVal.plist [v]) = true from rfl)]
    simp [cleanCallerVal, hv]
  · rw [dget_clean_algorithm alg _ hvc, h]
    rw [Option.map_some']
    rw [if_pos (show truthy (PyVal.plist [.pstr s]) = true from rfl)]
    rcases hs with hs | hs <;> simp [cleanCallerVal, hs]

/-- Witness for C7 at concrete inputs: `variantcaller: "gatk"` becomes
["gatk"]; `["none"]` becomes `False`; `[False]` (a falsy element) becomes
`False`; `["FALSE"]` (case-insensitive sentinel) becomes `False`. -/
theorem C7_caller_field_cleaning_witness :
    dget (clean_algorithm [("variantcaller", PyVal.pstr "gatk")]) "variantcaller" =
      some (.plist [.pstr "gatk"]) ∧
    dget (clean_algorithm [("variantcaller", PyVal.plist [.pstr "none"])]) "variantcaller" =
      some (.pbool false) ∧
    dget (clean_algorithm [("variantcaller", PyVal.plist [.pbool false])]) "variantcaller" =
      some (.pbool false) ∧
    dget (clean_algorithm [("variantcaller", PyVal.plist [.pstr "FALSE"])]) "variantcaller" =
      some (.pbool false) :=
  ⟨(C7_caller_field_cleaning _).1 rfl,
   (C7_caller_field_cleaning _).2.1 rfl,
   (C7_caller_field_cleaning _).2.2.1 (PyVal.pbool false) rfl rfl,
   (C7_caller_field_cleaning _).2.2.2 "FALSE" (Or.inr (by decide)) rfl⟩

/-- C10: for each caller-list key, a list value whose first element is a
string spelling "none" or "false" case-insensitively collapses to `False`
regardless of the list's length or its remaining elements. -/
theorem C10_sentinel_first_element (alg : List (String × PyVal)) (key s : String)
    (rest : List PyVal)
    (hkey : key = "variantcaller" ∨ key = "jointcaller" ∨ key = "svcaller")
    (hs : strLower s = "none" ∨ strLower s = "false")
    (hv : dget alg key = some (.plist (.pstr s :: rest))) :
    dget (clean_algorithm alg) key = some (.pbool false) := by
  rw [dget_clean_algorithm alg key hkey, hv]
  rw [Option.map_some']
  rw [if_pos (show truthy (PyVal.plist (PyVal.pstr s :: rest)) = true from rfl)]
  rcases hs with hs | hs <;> simp [cleanCallerVal, hs]

/-- Witness for C10 at a concrete input: `svcaller: ["none", "lumpy"]`
collapses to `False`, silently discarding "lumpy". -/
theorem C10_sentinel_first_element_witness :
    dget (clean_algorithm [("svcaller", PyVal.plist [.pstr "none", .pstr "lumpy"])])
      "svcaller" = some (.pbool false) :=
  C10_sentinel_first_element _ "svcaller" "none" [PyVal.pstr "lumpy"]
    (Or.inr (Or.inr rfl)) (Or.inl (by decide)) rfl

/-! ## Algorithm defaulting and coercion (`_add_algorithm_defaults`) -/

/-- The keys accepting scalar-or-sequence input, normalized to sequence
form. -/
def convert_to_list : List String :=
  ["tools_off", "tools_on", "hetcaller", "variantcaller", "qc", "disambiguate",
   "vcfanno", "adapters", "custom_trim"]

/-- The keys accepting only a single scalar, unwrapped from a one-element
sequence. -/
def convert_to_single : List String := ["hlacaller", "indelcaller", "validate_method"]

/-- The `defaults` table of `_add_algorithm_defaults`, in source order;
`mark_duplicates` defaults to true exactly when the incoming mapping has a
truthy `aligner`. -/
def algDefaults (algorithm : List (String × PyVal)) : List (String × PyVal) :=
  [("archive", PyVal.pnone),
   ("tools_off", .plist []),
   ("tools_on", .plist []),
   ("qc", .plist []),
   ("trim_reads", .pbool false),
   ("adapters", .plist []),
   ("effects", .pstr "snpeff"),
   ("quality_format", .pstr "standard"),
   ("align_split_size", PyVal.pnone),
   ("bam_clean", .pbool false),
   ("nomap_split_size", .pint 250),
   ("nomap_split_targets", .pint 200),
   ("mark_duplicates", if truthy ((dget algorithm "aligner").getD PyVal.pnone)
                       then .pbool true else .pbool false),
   ("coverage_interval", PyVal.pnone),
   ("recalibrate", .pbool false),
   ("realign", .pbool false),
   ("variant_regions", PyVal.pnone),
   ("validate", PyVal.pnone),
   ("validate_regions", PyVal.pnone)]

/-- One step of the defaults loop: `if k not in algorithm: algorithm[k] = v`. -/
def ensureDefault (acc : List (String × PyVal)) (kv : String × PyVal) :
    List (String × PyVal) :=
  match dget acc kv.1 with
  | some _ => acc
  | none => acc ++ [kv]

/-- List coercion for a `convert_to_list` key: a truthy scalar becomes a
one-element list; a truthy dictionary has each truthy scalar inner value
wrapped into a one-element list; `None` becomes the empty list; lists and
falsy non-`None` values are kept. -/
def convertListVal : PyVal → PyVal
  | .pdict d =>
    if d.isEmpty then .pdict d
    else .pdict (d.map (fun ikv =>
      (ikv.1, if truthy ikv.2 && !isListV ikv.2 && !isDictV ikv.2
              then PyVal.plist [ikv.2] else ikv.2)))
  | .pnone => .plist []
  | .plist l => .plist l
  | v => if truthy v then .plist [v] else v

/-- Scalar coercion for a `convert_to_single` key: a truthy non-string is
unwrapped from a one-element sequence, and any other truthy non-string
raises `ValueError` (the Python message also renders the value, which is
not modelled); strings and falsy values pass through. -/
def convertSingleVal (k : String) (v : PyVal) : Except PyErr PyVal :=
  if truthy v && !isStrV v then
    match v with
    | .plist [x] => .ok x
    | _ => .error (.valueError ("Unexpected input in sample YAML; need a single item for " ++ k))
  else .ok v

/-- One iteration of the conversion loop of `_add_algorithm_defaults`. -/
def convertEntry (kv : String × PyVal) : Except PyErr (String × PyVal) :=
  if kv.1 ∈ convert_to_list then .ok (kv.1, convertListVal kv.2)
  else if kv.1 ∈ convert_to_single then
    match convertSingleVal kv.1 kv.2 with
    | .error e => .error e
    | .ok v => .ok (kv.1, v)
  else .ok kv

/-- `_add_algorithm_defaults(algorithm)`: insert the missing defaults, then
convert every entry (`if not algorithm: algorithm = {}` is the identity on
the empty mapping and is not modelled separately). -/
def add_algorithm_defaults (algorithm : List (String × PyVal)) :
    Except PyErr (List (String × PyVal)) :=
  mapExcept convertEntry ((algDefaults algorithm).foldl ensureDefault algorithm)

/-- Look a key up in the result of a computation that may have raised. -/
def dgetOk (e : Except PyErr (List (String × PyVal))) (k : String) : Option PyVal :=
  match e with
  | .ok l => dget l k
  | .error _ => none

theorem foldl_ensureDefault_eq (ds acc : List (String × PyVal))
    (h : ∀ kv ∈ ds, (dget acc kv.1).isSome) : ds.foldl ensureDefault acc = acc := by
  induction ds with
  | nil => rfl
  | cons kv rest ih =>
    have hkv := h kv (by simp)
    have hstep : ensureDefault acc kv = acc := by
      unfold ensureDefault
      cases hd : dget acc kv.1 with
      | none => rw [hd] at hkv; simp at hkv
      | some v => rfl
    simpa [List.foldl_cons, hstep] using ih (fun b hb => h b (by simp [hb]))

theorem mapExcept_id {α ε : Type} (f : α → Except ε α) (l : List α)
    (h : ∀ a ∈ l, f a = .ok a) : mapExcept f l = .ok l := by
  induction l with
  | nil => rfl
  | cons a as ih =>
    have ha := h a (by simp)
    have htl := ih (fun b hb => h b (by simp [hb]))
    simp only [mapExcept, ha, htl]

/-- The `algorithm` mapping of the C8 counterexample: every default key is
present with its default value (so the claim's "defaults filled" hypothesis
holds), every list-coercible key present carries a list (so the claim's
"list-coercible values in list form" hypothesis holds), and the scalar-only
key `hlacaller` carries the one-element list ["optitype"]. -/
def algC8 : List (String × PyVal) :=
  algDefaults [] ++ [("hlacaller", PyVal.plist [.pstr "optitype"])]

/-- C8 (counterexample): `algC8` satisfies the claim's hypotheses — all
default keys present, all list-coercible values already lists — yet
`_add_algorithm_defaults` changes it: the scalar-only key `hlacaller` is
unwrapped from `["optitype"]` to the bare string "optitype", so the pass is
not the identity on such mappings. -/
theorem C8_counterexample :
    ((algDefaults algC8).all (fun kv => (dget algC8 kv.1).isSome)) = true ∧
    (algC8.all (fun kv => !(convert_to_list.contains kv.1) || isListV kv.2)) = true ∧
    isOkE (add_algorithm_defaults algC8) = true ∧
    dget algC8 "hlacaller" = some (.plist [.pstr "optitype"]) ∧
    dgetOk (add_algorithm_defaults algC8) "hlacaller" = some (.pstr "optitype") ∧
    PyVal.pstr "optitype" ≠ PyVal.plist [.pstr "optitype"] :=
  ⟨by decide, by decide, by decide, rfl, rfl, fun h => PyVal.noConfusion h⟩

/-- C8 (amended): normalization is idempotent on already-normalized records
in the following sense — path absolutization returns an already-absolute
path unchanged for any candidate list and creation mode, and algorithm
defaulting/coercion returns an `algorithm` mapping unchanged whenever every
default key is already present, every list-coercible key holds a list, and
every scalar-only key holds a string or a falsy value; a second run of these
passes over such output is therefore the identity. -/
theorem C8_idempotent_on_normalized :
    (∀ (fs rem : String → Bool) (dnames : List (Option String)) (mk : Bool) (x : String),
      isAbsPath x = true → file_to_abs fs rem (some x) dnames mk = .ok (some x)) ∧
    (∀ alg : List (String × PyVal),
      (∀ kv ∈ algDefaults alg, (dget alg kv.1).isSome) →
      (∀ kv ∈ alg, kv.1 ∈ convert_to_list → isListV kv.2 = true) →
      (∀ kv ∈ alg, kv.1 ∈ convert_to_single → isStrV kv.2 = true ∨ truthy kv.2 = false) →
      add_algorithm_defaults alg = .ok alg) := by
  constructor
  · intro fs rem dnames mk x hx
    simp [file_to_abs, hx]
  · intro alg hdef hlist hsingle
    unfold add_algorithm_defaults
    rw [foldl_ensureDefault_eq _ _ hdef]
    refine mapExcept_id _ _ (fun kv hkv => ?_)
    obtain ⟨k, v⟩ := kv
    unfold convertEntry
    by_cases hl : k ∈ convert_to_list
    · have hv := hlist (k, v) hkv hl
      cases v <;> simp_all [isListV, convertListVal]
    · by_cases hs : k ∈ convert_to_single
      · rcases hsingle (k, v) hkv hs with hv | hv
        · cases v <;> simp_all [isStrV, convertSingleVal, convertEntry]
        · have : convertSingleVal k v = .ok v := by
            unfold convertSingleVal
            rw [hv]
            simp
          simp [hl, hs, this]
      · simp [hl, hs]

/-- Witness for C8 (amended) at concrete inputs: the absolute path
"/data/f.bam" is returned unchanged, and the fully-defaulted mapping
`algDefaults []` is a fixed point of `_add_algorithm_defaults`. -/
theorem C8_idempotent_on_normalized_witness :
    file_to_abs remFalse remFalse (some "/data/f.bam") [some "d1"] false =
      .ok (some "/data/f.bam") ∧
    add_algorithm_defaults (algDefaults []) = .ok (algDefaults []) := by
  obtain ⟨h1, h2⟩ := C8_idempotent_on_normalized
  exact ⟨h1 remFalse remFalse [some "d1"] false "/data/f.bam" (by decide),
    h2 (algDefaults []) (by decide) (by decide) (by decide)⟩

end RunInfo
